import Mathlib

/-!
# Verification of `book_isbn_extractor.py`

Shallow embedding of the core of the Book ISBN Extractor: the ISBN-10/13
checksum validators, the regex-driven candidate extraction pipeline, the
per-file aggregation map, the metadata-enrichment step, and the
`process_folder` orchestration.  Text is modelled as `List Char`; Python
integers as `Nat` (all quantities involved are non-negative and no overflow
exists in Python).  External effects (OCR, the Google Books HTTP call) are
modelled as explicit inputs: an image is a pair of its base name and the
recognized text, and the metadata lookup is a parameter
`lookup : List Char → Option VolumeInfo` standing for the parsed API
response (`items[0].volumeInfo` when `totalItems > 0`, `none` otherwise or
on any request error).
-/

namespace BookIsbn

/-- ASCII decimal digit test, modelling Python's `str.isdigit` on the ASCII
strings this pipeline produces. -/
def isDigitChar (c : Char) : Bool := '0' ≤ c && c ≤ '9'

/-- Numeric value of a digit character, modelling Python's `int(c)`. -/
def charDigit (c : Char) : Nat := c.toNat - '0'.toNat

/-- The regex character class `[-\s]` (hyphen or ASCII whitespace). -/
def isSepChar (c : Char) : Bool :=
  c = '-' || c = ' ' || c = '\t' || c = '\n' || c = '\x0b' || c = '\x0c' || c = '\r'

/-- ASCII whitespace, as stripped by Python's `str.strip()`. -/
def isSpaceChar (c : Char) : Bool :=
  c = ' ' || c = '\t' || c = '\n' || c = '\x0b' || c = '\x0c' || c = '\r'

/-- `ISBNExtractor._validate_isbn10` (book_isbn_extractor.py lines 175-194).
The source loop returns `False` on the first non-digit among positions 0-8;
checking all nine positions first and then summing is behaviourally
identical and is how the loop is embedded.  The check character is
uppercased (`isbn[9].upper()`) before comparison with `'X'`. -/
def validate_isbn10 (isbn : List Char) : Bool :=
  if isbn.length = 10 then
    if (List.range 9).all (fun i => isDigitChar (isbn.getD i '0')) then
      let total := (List.range 9).foldl
        (fun acc i => acc + charDigit (isbn.getD i '0') * (10 - i)) 0
      let check := (isbn.getD 9 '0').toUpper
      if check = 'X' then decide ((total + 10) % 11 = 0)
      else if isDigitChar check then decide ((total + charDigit check) % 11 = 0)
      else false
    else false
  else false

/-- `ISBNExtractor._validate_isbn13` (book_isbn_extractor.py lines 196-206). -/
def validate_isbn13 (isbn : List Char) : Bool :=
  if isbn.length = 13 && isbn.all isDigitChar then
    let total := (List.range 12).foldl
      (fun acc i => acc + charDigit (isbn.getD i '0') * (if i % 2 = 0 then 1 else 3)) 0
    decide ((10 - total % 10) % 10 = charDigit (isbn.getD 12 '0'))
  else false

/-- `ISBNExtractor._validate_isbn` (book_isbn_extractor.py lines 164-173). -/
def validate_isbn (isbn : List Char) : Bool :=
  if isbn.length = 10 then validate_isbn10 isbn
  else if isbn.length = 13 then validate_isbn13 isbn
  else false

/-- The weighted sum over the first 12 digits with alternating weights 1,3,
written as the spec writes it (a sum over positions), to compare with the
source's accumulator loop. -/
def specSum13 (s : List Char) : Nat :=
  ((List.range 12).map
    (fun i => charDigit (s.getD i '0') * (if i % 2 = 0 then 1 else 3))).sum

/-- The ISBN-10 weighted sum `Σ digit[i]·(10−i)` for `i = 0..8`, written as
the spec writes it. -/
def specSum10 (s : List Char) : Nat :=
  ((List.range 9).map (fun i => charDigit (s.getD i '0') * (10 - i))).sum

/-- Case-insensitive literal match (the patterns are compiled with
`re.IGNORECASE`), consuming the literal and returning the rest. -/
def matchCI : List Char → List Char → Option (List Char)
  | [], s => some s
  | _ :: _, [] => none
  | l :: ls, c :: s => if c.toUpper = l.toUpper then matchCI ls s else none

/-- Consume exactly `n` digit characters, returning them and the rest. -/
def takeDigits : Nat → List Char → Option (List Char × List Char)
  | 0, s => some ([], s)
  | _ + 1, [] => none
  | n + 1, c :: s =>
    if isDigitChar c then (takeDigits n s).map (fun p => (c :: p.1, p.2))
    else none

/-- The greedy optional separator `[-\s]?`.  In both patterns the element
following every `[-\s]?` is a digit class or `[\dX]`, disjoint from
`[-\s]`, so the greedy match never usefully backtracks: if a separator is
present and the continuation fails, the empty alternative leaves a
separator where a digit-class character is required and fails as well. -/
def optSep : List Char → List Char × List Char
  | [] => ([], [])
  | c :: s => if isSepChar c then ([c], s) else ([], c :: s)

/-- The final `[\dX]` class of the ISBN-10 pattern; under `re.IGNORECASE`
it also accepts a lowercase `x`. -/
def isbn10FinalClass (c : Char) : Bool := isDigitChar c || c = 'X' || c = 'x'

/-- Capturing group of the ISBN-13 pattern (source line 131):
`\d{3}[-\s]?\d[-\s]?\d{3}[-\s]?\d{5}[-\s]?\d`.  Returns the captured text
(separators included) and the rest of the input. -/
def body13 (s : List Char) : Option (List Char × List Char) := do
  let (a, s1) ← takeDigits 3 s
  let (p1, s2) := optSep s1
  let (b, s3) ← takeDigits 1 s2
  let (p2, s4) := optSep s3
  let (c, s5) ← takeDigits 3 s4
  let (p3, s6) := optSep s5
  let (d, s7) ← takeDigits 5 s6
  let (p4, s8) := optSep s7
  let (e, s9) ← takeDigits 1 s8
  return (a ++ p1 ++ b ++ p2 ++ c ++ p3 ++ d ++ p4 ++ e, s9)

/-- Capturing group of the ISBN-10 pattern (source line 132):
`\d{1}[-\s]?\d{3}[-\s]?\d{5}[-\s]?[\dX]`. -/
def body10 (s : List Char) : Option (List Char × List Char) := do
  let (a, s1) ← takeDigits 1 s
  let (p1, s2) := optSep s1
  let (b, s3) ← takeDigits 3 s2
  let (p2, s4) := optSep s3
  let (c, s5) ← takeDigits 5 s4
  let (p3, s6) := optSep s5
  match s6 with
  | [] => none
  | d :: s7 =>
    if isbn10FinalClass d then some (a ++ p1 ++ b ++ p2 ++ c ++ p3 ++ [d], s7)
    else none

/-- Alternative rests after an optional one-character class, in the
backtracking preference order of a greedy `?` (present first). -/
def optClassAlts (cls : Char → Bool) : List Char → List (List Char)
  | [] => [[]]
  | c :: s => if cls c then [s, c :: s] else [c :: s]

/-- Alternative rests after an optional case-insensitive literal, greedy. -/
def optLitAlts (lit : List Char) (s : List Char) : List (List Char) :=
  match matchCI lit s with
  | some r => [r, s]
  | none => [s]

/-- Rests after the optional header `(?:ISBN[-\s]?(?:nn)?[-\s]?:?[-\s]?)?`
(`nn` is `"13"` or `"10"`), enumerated in Python's backtracking preference
order: header present before header absent, inner optional parts greedy,
choice points explored depth-first with the leftmost choice most
significant. -/
def headerAlts (nn : List Char) (s : List Char) : List (List Char) :=
  (match matchCI (String.toList "ISBN") s with
    | none => []
    | some s1 =>
      (optClassAlts isSepChar s1).flatMap fun s2 =>
        (optLitAlts nn s2).flatMap fun s3 =>
          (optClassAlts isSepChar s3).flatMap fun s4 =>
            (optClassAlts (fun c => c = ':') s4).flatMap fun s5 =>
              optClassAlts isSepChar s5)
  ++ [s]

/-- Attempt a full pattern match at the current position: the first header
alternative after which the pattern body matches, in Python's backtracking
order.  Returns the captured group and the remaining input. -/
def matchPatternAt (nn : List Char) (body : List Char → Option (List Char × List Char))
    (s : List Char) : Option (List Char × List Char) :=
  (headerAlts nn s).findSome? body

/-- `re.finditer`: scan left to right, taking leftmost non-overlapping
matches and continuing after each match.  `fuel` bounds the recursion; the
entry point passes the text length, which suffices since every match of
either pattern consumes at least ten characters. -/
def finditerAux (m : List Char → Option (List Char × List Char)) :
    Nat → List Char → List (List Char)
  | 0, _ => []
  | _ + 1, [] => []
  | fuel + 1, c :: s =>
    match m (c :: s) with
    | some (g, rest) => g :: finditerAux m fuel rest
    | none => finditerAux m fuel s

def finditer (m : List Char → Option (List Char × List Char)) (text : List Char) :
    List (List Char) :=
  finditerAux m text.length text

/-- Captured groups of the ISBN-13 pattern over the whole text. -/
def findIsbn13 (text : List Char) : List (List Char) :=
  finditer (matchPatternAt (String.toList "13") body13) text

/-- Captured groups of the ISBN-10 pattern over the whole text. -/
def findIsbn10 (text : List Char) : List (List Char) :=
  finditer (matchPatternAt (String.toList "10") body10) text

/-- `re.sub(r'[-\s]', '', isbn)` — normalization (source line 155). -/
def cleanIsbn (s : List Char) : List Char := s.filter (fun c => !isSepChar c)

/-- The per-pattern loop body of `extract_isbns_from_text` (lines 152-160):
clean each captured group, keep it when its length is 10 or 13 and the
checksum validates. -/
def keepValidIsbns (cands : List (List Char)) : List (List Char) :=
  cands.filterMap (fun m =>
    let c := cleanIsbn m
    if (c.length = 10 || c.length = 13) && validate_isbn c then some c else none)

/-- `ISBNExtractor.extract_isbns_from_text` (lines 146-162).  The final
`list(set(isbns))` removes duplicates in an unspecified order; it is
modelled with `List.dedup`, and properties of the result are stated up to
membership and duplicate-freeness, never element order. -/
def extract_isbns_from_text (text : List Char) : List (List Char) :=
  (keepValidIsbns (findIsbn13 text) ++ keepValidIsbns (findIsbn10 text)).dedup

/-- One iteration of the aggregation loop (lines 303-306): create the entry
on first sight of the ISBN, then append the file name unconditionally.  The
map is an insertion-ordered association list, as a Python dict is. -/
def addIsbn (m : List (List Char × List (List Char))) (isbn fname : List Char) :
    List (List Char × List (List Char)) :=
  if m.any (fun e => e.1 = isbn) then
    m.map (fun e => if e.1 = isbn then (e.1, e.2 ++ [fname]) else e)
  else m ++ [(isbn, [fname])]

/-- The aggregation step as the spec words it: the file name is appended
only if not already recorded for that identifier. -/
def addIsbnSpec (m : List (List Char × List (List Char))) (isbn fname : List Char) :
    List (List Char × List (List Char)) :=
  if m.any (fun e => e.1 = isbn) then
    m.map (fun e =>
      if e.1 = isbn then (e.1, if fname ∈ e.2 then e.2 else e.2 ++ [fname]) else e)
  else m ++ [(isbn, [fname])]

/-- The inner `for isbn in isbns` loop of `process_folder` for one file. -/
def aggregateFile (m : List (List Char × List (List Char))) (fname : List Char)
    (isbns : List (List Char)) : List (List Char × List (List Char)) :=
  isbns.foldl (fun acc i => addIsbn acc i fname) m

/-- The aggregation map built over all files (lines 283-306), fed with each
file's base name and extracted ISBN list. -/
def aggregate (files : List (List Char × List (List Char))) :
    List (List Char × List (List Char)) :=
  files.foldl (fun acc f => aggregateFile acc f.1 f.2) []

/-- `aggregateFile` with the spec's append-on-first-seen step. -/
def aggregateFileSpec (m : List (List Char × List (List Char))) (fname : List Char)
    (isbns : List (List Char)) : List (List Char × List (List Char)) :=
  isbns.foldl (fun acc i => addIsbnSpec acc i fname) m

/-- `aggregate` with the spec's append-on-first-seen step. -/
def aggregateSpec (files : List (List Char × List (List Char))) :
    List (List Char × List (List Char)) :=
  files.foldl (fun acc f => aggregateFileSpec acc f.1 f.2) []

/-- The parsed Google Books volume info (`items[0].volumeInfo`): each key
the source reads, `none` when absent.  Scalar JSON values (e.g.
`pageCount`) are modelled as text. -/
structure VolumeInfo where
  title : Option (List Char)
  authors : Option (List (List Char))
  publisher : Option (List Char)
  publishedDate : Option (List Char)
  description : Option (List Char)
  pageCount : Option (List Char)
  language : Option (List Char)
deriving DecidableEq

/-- One row handed to the report writer: the dicts built at lines 247-256
and 320-335. -/
structure BookRecord where
  isbn : List Char
  title : List Char
  authors : List Char
  publisher : List Char
  published_date : List Char
  description : List Char
  page_count : List Char
  language : List Char
  source_files : List Char
deriving DecidableEq

def unknownMark : List Char := String.toList "Unknown"

/-- The description field built by `_get_from_google_books` (line 253):
`description[:500] + '...' if description else ''` — the `'...'` marker is
appended whenever the description is non-empty, because the conditional
tests truthiness, not whether the slice shortened anything. -/
def descriptionField (d : Option (List Char)) : List Char :=
  if d.getD [] = [] then [] else (d.getD []).take 500 ++ String.toList "..."

/-- The dict built on a successful Google Books lookup
(`_get_from_google_books`, lines 247-256); `source_files` is filled in
later by `process_folder`. -/
def google_books_record (isbn : List Char) (vi : VolumeInfo) : BookRecord :=
  { isbn := isbn
    title := vi.title.getD unknownMark
    authors := List.intercalate (String.toList ", ") (vi.authors.getD [unknownMark])
    publisher := vi.publisher.getD unknownMark
    published_date := vi.publishedDate.getD unknownMark
    description := descriptionField vi.description
    page_count := vi.pageCount.getD unknownMark
    language := vi.language.getD unknownMark
    source_files := [] }

/-- One iteration of the enrichment loop of `process_folder`
(lines 316-335): a populated record on lookup success, the sentinel record
of lines 325-335 on failure or no-result. -/
def make_record (lookup : List Char → Option VolumeInfo) (isbn : List Char)
    (source_files : List (List Char)) : BookRecord :=
  match lookup isbn with
  | some vi =>
    { google_books_record isbn vi with
        source_files := List.intercalate (String.toList ", ") source_files }
  | none =>
    { isbn := isbn
      title := String.toList "Information not found"
      authors := unknownMark
      publisher := unknownMark
      published_date := unknownMark
      description := []
      page_count := unknownMark
      language := unknownMark
      source_files := List.intercalate (String.toList ", ") source_files }

/-- The enrichment loop over the aggregation map (lines 315-335). -/
def enrich (lookup : List Char → Option VolumeInfo)
    (allIsbns : List (List Char × List (List Char))) : List BookRecord :=
  allIsbns.map (fun e => make_record lookup e.1 e.2)

/-- Warnings `process_folder` can log before reaching the report. -/
inductive LogEvent where
  | warnNoImages
  | warnNoIsbns
deriving DecidableEq

/-- The per-file part of the `process_folder` loop (lines 286-306): a file
whose image could not be read (`none`) or whose recognized text strips to
empty is skipped; otherwise it contributes its extracted ISBN list. -/
def fileContribution : List Char × Option (List Char) →
    Option (List Char × List (List Char))
  | (_, none) => none
  | (name, some text) =>
    if (text.filter (fun c => !isSpaceChar c)).isEmpty then none
    else some (name, extract_isbns_from_text text)

/-- `BookISBNExtractor.process_folder` (lines 273-339), with external
effects made explicit: `images` is the discovered image list as pairs of
base name and OCR text (`none` when the image could not be read, in which
case the file is skipped, as is a file whose text strips to empty), and
`lookup` is the metadata API.  The Python function returns `None`
(success) in every case; the embedding returns the record list handed to
the report writer — empty on the two early returns — together with the
warnings logged, and has no error outcome. -/
def process_folder (lookup : List Char → Option VolumeInfo)
    (images : List (List Char × Option (List Char))) :
    List BookRecord × List LogEvent :=
  if images.isEmpty then ([], [LogEvent.warnNoImages])
  else
    let allIsbns := aggregate (images.filterMap fileContribution)
    if allIsbns.isEmpty then ([], [LogEvent.warnNoIsbns])
    else (enrich lookup allIsbns, [])

end BookIsbn

namespace BookIsbn

theorem foldl_add_eq_sum (f : Nat → Nat) :
    ∀ (l : List Nat) (a : Nat),
      l.foldl (fun acc i => acc + f i) a = a + (l.map f).sum := by
  intro l
  induction l with
  | nil => simp
  | cons x xs ih => intro a; simp [List.foldl, ih, Nat.add_assoc]

/-- **C1.** For every 13-character string `s`, the validator returns `true`
iff `s` consists only of digits and the check digit computed as
`(10 − (weighted sum of the first 12 digits with alternating weights 1,3)
mod 10) mod 10` equals the 13th digit; in particular `"9780596520687"`
validates and `"9780123456788"` does not. -/
theorem isbn13_validator_correct :
    (∀ s : List Char, s.length = 13 →
      (validate_isbn13 s = true ↔
        s.all isDigitChar = true ∧
          (10 - specSum13 s % 10) % 10 = charDigit (s.getD 12 '0')))
    ∧ validate_isbn13 (String.toList "9780596520687") = true
    ∧ validate_isbn13 (String.toList "9780123456788") = false := by
  refine ⟨?_, by decide, by decide⟩
  intro s hs
  unfold validate_isbn13
  rw [foldl_add_eq_sum]
  simp [hs, specSum13]

/-- Witness for C1: the iff applied at the concrete valid example. -/
theorem isbn13_validator_correct_witness :
    validate_isbn13 (String.toList "9780596520687") = true :=
  (isbn13_validator_correct.1 (String.toList "9780596520687") (by decide)).mpr
    (by decide)

/-- Closed form of the ISBN-10 validator on 10-character input: positions
0-8 must be digits, the uppercased check character must be a digit or `X`,
and the weighted sum plus the check value must be divisible by 11. -/
theorem validate_isbn10_iff (s : List Char) (hs : s.length = 10) :
    validate_isbn10 s = true ↔
      (∀ i < 9, isDigitChar (s.getD i '0') = true) ∧
        (isDigitChar ((s.getD 9 '0').toUpper) = true ∨ (s.getD 9 '0').toUpper = 'X') ∧
        (specSum10 s +
          (if (s.getD 9 '0').toUpper = 'X' then 10
           else charDigit ((s.getD 9 '0').toUpper))) % 11 = 0 := by
  have hallIff : ((List.range 9).all (fun i => isDigitChar (s.getD i '0')) = true)
      ↔ (∀ i < 9, isDigitChar (s.getD i '0') = true) := by
    rw [List.all_eq_true]
    constructor
    · intro h i hi; exact h i (List.mem_range.mpr hi)
    · intro h i hi; exact h i (List.mem_range.mp hi)
  have e1 : (∀ i < 9, isDigitChar (s.getD i '0') = true) →
      validate_isbn10 s =
        (if (s.getD 9 '0').toUpper = 'X' then decide ((specSum10 s + 10) % 11 = 0)
         else if isDigitChar ((s.getD 9 '0').toUpper) then
           decide ((specSum10 s + charDigit ((s.getD 9 '0').toUpper)) % 11 = 0)
         else false) := by
    intro hA
    unfold validate_isbn10
    rw [foldl_add_eq_sum, if_pos hs, if_pos (hallIff.mpr hA)]
    simp only [specSum10, Nat.zero_add]
  have e2 : ¬(∀ i < 9, isDigitChar (s.getD i '0') = true) →
      validate_isbn10 s = false := by
    intro hA
    unfold validate_isbn10
    rw [if_pos hs, if_neg (fun h => hA (hallIff.mp h))]
  by_cases hA : ∀ i < 9, isDigitChar (s.getD i '0') = true
  · rw [e1 hA]
    by_cases hX : (s.getD 9 '0').toUpper = 'X'
    · rw [if_pos hX, if_pos hX]
      simp only [decide_eq_true_eq]
      constructor
      · intro h; exact ⟨hA, Or.inr hX, h⟩
      · intro h; exact h.2.2
    · rw [if_neg hX, if_neg hX]
      by_cases hd : isDigitChar ((s.getD 9 '0').toUpper) = true
      · rw [if_pos hd]
        simp only [decide_eq_true_eq]
        constructor
        · intro h; exact ⟨hA, Or.inl hd, h⟩
        · intro h; exact h.2.2
      · rw [if_neg hd]
        refine iff_of_false (by simp) ?_
        rintro ⟨-, h1 | h1, -⟩
        · exact hd h1
        · exact hX h1
  · rw [e2 hA]
    refine iff_of_false (by simp) ?_
    rintro ⟨h1, -, -⟩
    exact hA h1

/-- **C2 counterexample.** The string `"000000006x"` is accepted by the
ISBN-10 validator even though its final character is neither a digit nor
`'X'`, contradicting the claim's "any other final character makes `s`
invalid". -/
theorem isbn10_claim_counterexample :
    validate_isbn10 (String.toList "000000006x") = true ∧
      ¬(isDigitChar ((String.toList "000000006x").getD 9 '0') = true ∨
        (String.toList "000000006x").getD 9 '0' = 'X') :=
  ⟨by decide, by decide⟩

/-- **C2 (amended).** For every 10-character string `s`, the validator
returns `true` iff positions 0-8 of `s` are all digits, the final
character — compared after uppercasing, so `'x'` counts like `'X'` — is a
digit or `'X'`, and `Σ digit[i]·(10−i)` for `i = 0..8` plus the check
value (10 for `'X'`/`'x'`, else the final digit) is divisible by 11; any
other final character makes `s` invalid.  In particular `"0596007973"`
validates and `"0123456788"` does not. -/
theorem isbn10_validator_correct :
    (∀ s : List Char, s.length = 10 →
      (validate_isbn10 s = true ↔
        (∀ i < 9, isDigitChar (s.getD i '0') = true) ∧
          (isDigitChar ((s.getD 9 '0').toUpper) = true ∨ (s.getD 9 '0').toUpper = 'X') ∧
          (specSum10 s +
            (if (s.getD 9 '0').toUpper = 'X' then 10
             else charDigit ((s.getD 9 '0').toUpper))) % 11 = 0))
    ∧ validate_isbn10 (String.toList "0596007973") = true
    ∧ validate_isbn10 (String.toList "0123456788") = false :=
  ⟨validate_isbn10_iff, by decide, by decide⟩

/-- Witness for C2: the iff applied at the concrete valid example. -/
theorem isbn10_validator_correct_witness :
    validate_isbn10 (String.toList "0596007973") = true :=
  (isbn10_validator_correct.1 (String.toList "0596007973") (by decide)).mpr
    (by decide)

/-- **C10.** For 10-character candidates whose first nine characters are
digits, the validator accepts a lowercase `'x'` as the final check
character exactly as it accepts `'X'` (check value 10): replacing the
final `'x'` by `'X'` does not change the verdict, and validity is
divisibility of the weighted sum plus 10 by 11.  The `[\dX]` class of the
ISBN-10 pattern matches `'x'` under `re.IGNORECASE`, and such candidates
flow through extraction: `"0-000-00006-x"` is extracted as
`"000000006x"`. -/
theorem isbn10_lowercase_x_accepted :
    (∀ s t : List Char, s.length = 10 → t.length = 10 →
      (∀ i < 9, s.getD i '0' = t.getD i '0') →
      s.getD 9 '0' = 'x' → t.getD 9 '0' = 'X' →
      (validate_isbn10 s = validate_isbn10 t ∧
        ((∀ i < 9, isDigitChar (s.getD i '0') = true) →
          (validate_isbn10 s = true ↔ (specSum10 s + 10) % 11 = 0))))
    ∧ isbn10FinalClass 'x' = true
    ∧ extract_isbns_from_text (String.toList "0-000-00006-x")
        = [String.toList "000000006x"] := by
  refine ⟨?_, by decide, by decide⟩
  intro s t hs ht hst hx hX
  have hxu : ('x').toUpper = 'X' := by decide
  have hXu : ('X').toUpper = 'X' := by decide
  have hsum : specSum10 s = specSum10 t := by
    unfold specSum10
    refine congrArg _ (List.map_congr_left ?_)
    intro i hi
    rw [hst i (List.mem_range.mp hi)]
  have hdig : (∀ i < 9, isDigitChar (s.getD i '0') = true) ↔
      (∀ i < 9, isDigitChar (t.getD i '0') = true) := by
    constructor <;> intro h i hi
    · rw [← hst i hi]; exact h i hi
    · rw [hst i hi]; exact h i hi
  constructor
  · rw [Bool.eq_iff_iff, validate_isbn10_iff s hs, validate_isbn10_iff t ht,
      hx, hX, hxu, hXu, hsum, hdig]
  · intro hdigs
    rw [validate_isbn10_iff s hs, hx, hxu, if_pos rfl]
    constructor
    · intro h; exact h.2.2
    · intro h; exact ⟨hdigs, Or.inr rfl, h⟩

/-- Witness for C10: the lowercase and uppercase forms of a concrete valid
ISBN-10 get the same verdict. -/
theorem isbn10_lowercase_x_accepted_witness :
    validate_isbn10 (String.toList "000000006x")
      = validate_isbn10 (String.toList "000000006X") :=
  (isbn10_lowercase_x_accepted.1 (String.toList "000000006x")
    (String.toList "000000006X") (by decide) (by decide) (by decide)
    (by decide) (by decide)).1

theorem count_eq_one_of_nodup_mem {v : List Char} :
    ∀ {l : List (List Char)}, l.Nodup → v ∈ l → l.count v = 1 := by
  intro l
  induction l with
  | nil => intro _ h; exact absurd h (List.not_mem_nil v)
  | cons a l ih =>
    intro hnd hm
    have hnc := List.nodup_cons.mp hnd
    rw [List.count_cons]
    rcases List.mem_cons.mp hm with rfl | hm2
    · rw [List.count_eq_zero.mpr hnc.1]
      simp
    · rw [ih hnc.2 hm2]
      have hne : ¬(a == v) = true := by
        simp only [beq_iff_eq]
        intro h; exact hnc.1 (h ▸ hm2)
      simp [hne]

/-- Every element kept by the per-pattern loop body is a cleaned candidate
of length 10 or 13 passing the checksum validator. -/
theorem mem_keepValidIsbns {v : List Char} {l : List (List Char)}
    (h : v ∈ keepValidIsbns l) :
    validate_isbn v = true ∧ (v.length = 10 ∨ v.length = 13) ∧
      ∀ c ∈ v, isSepChar c = false := by
  unfold keepValidIsbns at h
  obtain ⟨m, -, hf⟩ := List.mem_filterMap.mp h
  simp only [] at hf
  split at hf
  case isTrue hc =>
    obtain rfl : cleanIsbn m = v := Option.some.inj hf
    rw [Bool.and_eq_true, Bool.or_eq_true, decide_eq_true_eq, decide_eq_true_eq]
      at hc
    refine ⟨hc.2, hc.1, ?_⟩
    intro c hcv
    have hmem := List.mem_filter.mp hcv
    simpa using hmem.2
  case isFalse => exact absurd hf (by simp)

/-- **C3.** For every input text, `extract_isbns_from_text` returns a
duplicate-free collection of normalized (separator-free) identifiers, each
of which passes `validate_isbn` and has length 10 or 13 (so never 9 or
11); any value — in particular one produced by both patterns — appears
exactly once. -/
theorem extract_results_validated :
    ∀ text : List Char,
      (extract_isbns_from_text text).Nodup ∧
      ∀ v ∈ extract_isbns_from_text text,
        validate_isbn v = true ∧ (v.length = 10 ∨ v.length = 13) ∧
          v.length ≠ 9 ∧ v.length ≠ 11 ∧
          (∀ c ∈ v, isSepChar c = false) ∧
          (extract_isbns_from_text text).count v = 1 := by
  intro text
  have hnd : (extract_isbns_from_text text).Nodup := List.nodup_dedup _
  refine ⟨hnd, ?_⟩
  intro v hv
  have hv2 : v ∈ keepValidIsbns (findIsbn13 text)
      ++ keepValidIsbns (findIsbn10 text) := by
    have hv3 := hv
    unfold extract_isbns_from_text at hv3
    exact List.mem_dedup.mp hv3
  have hbase : validate_isbn v = true ∧ (v.length = 10 ∨ v.length = 13) ∧
      ∀ c ∈ v, isSepChar c = false := by
    rcases List.mem_append.mp hv2 with h | h
    · exact mem_keepValidIsbns h
    · exact mem_keepValidIsbns h
  obtain ⟨h1, h2, h3⟩ := hbase
  refine ⟨h1, h2, ?_, ?_, h3, count_eq_one_of_nodup_mem hnd hv⟩
  · rcases h2 with h | h <;> omega
  · rcases h2 with h | h <;> omega

/-- Witness for C3: a concrete text containing a hyphenated ISBN-13; the
extracted value passes the validator. -/
theorem extract_results_validated_witness :
    validate_isbn (String.toList "9780596520687") = true :=
  ((extract_results_validated (String.toList "ISBN: 978-0-596-52068-7")).2
    (String.toList "9780596520687") (by decide)).1

/-- `make_record` preserves the identifier, whatever the lookup returns. -/
theorem make_record_isbn (lookup : List Char → Option VolumeInfo)
    (isbn : List Char) (files : List (List Char)) :
    (make_record lookup isbn files).isbn = isbn := by
  unfold make_record
  cases lookup isbn <;> rfl

/-- **C4.** Enrichment produces exactly one `BookRecord` per aggregated
identifier — the record list has the same length as the aggregation map
and carries the identifiers through positionally — for every behaviour of
the metadata lookup, including one that fails on every identifier. -/
theorem enrichment_one_record_per_isbn :
    ∀ (lookup : List Char → Option VolumeInfo)
      (allIsbns : List (List Char × List (List Char))),
      (enrich lookup allIsbns).length = allIsbns.length ∧
        (enrich lookup allIsbns).map BookRecord.isbn = allIsbns.map Prod.fst := by
  intro lookup allIsbns
  refine ⟨by simp [enrich], ?_⟩
  unfold enrich
  rw [List.map_map]
  exact List.map_congr_left (fun e _ => make_record_isbn lookup e.1 e.2)

/-- **C5 counterexample.** The sentinel record emitted on lookup failure
has an *empty* description, not an "Unknown"/"Information not found"
marker as the claim states for all descriptive fields. -/
theorem sentinel_description_not_marked :
    (make_record (fun _ => none) (String.toList "0596007973")
        [String.toList "book_1.png"]).description = [] ∧
      (make_record (fun _ => none) (String.toList "0596007973")
          [String.toList "book_1.png"]).description ≠ String.toList "Unknown" ∧
      (make_record (fun _ => none) (String.toList "0596007973")
          [String.toList "book_1.png"]).description
        ≠ String.toList "Information not found" := by
  decide

/-- **C5 (amended).** For every identifier whose metadata lookup fails or
returns no result, the emitted sentinel record has its title set to
"Information not found", its authors, publisher, published date, page
count and language set to "Unknown", and its description set to the empty
string, while the identifier and its source-file list (joined with ", ")
are preserved unchanged. -/
theorem sentinel_record_fields :
    ∀ (lookup : List Char → Option VolumeInfo) (isbn : List Char)
      (files : List (List Char)), lookup isbn = none →
      make_record lookup isbn files =
        { isbn := isbn
          title := String.toList "Information not found"
          authors := unknownMark
          publisher := unknownMark
          published_date := unknownMark
          description := []
          page_count := unknownMark
          language := unknownMark
          source_files := List.intercalate (String.toList ", ") files } := by
  intro lookup isbn files h
  unfold make_record
  rw [h]

/-- Witness for C5: the sentinel for a concrete failing lookup. -/
theorem sentinel_record_fields_witness :
    (make_record (fun _ => none) (String.toList "9780596520687")
        [String.toList "book_1.png"]).title
      = String.toList "Information not found" := by
  rw [sentinel_record_fields (fun _ => none) _ _ rfl]

/-- **C8 counterexample.** A successful lookup whose description `"abc"`
has no more than 500 characters still gets the `"..."` continuation marker
appended: the result is `"abc..."`, not the claimed plain truncation
`"abc"`. -/
theorem description_marker_counterexample :
    (google_books_record (String.toList "9780596520687")
        { title := none, authors := none, publisher := none,
          publishedDate := none, description := some (String.toList "abc"),
          pageCount := none, language := none }).description
        = String.toList "abc..." ∧
      (google_books_record (String.toList "9780596520687")
          { title := none, authors := none, publisher := none,
            publishedDate := none, description := some (String.toList "abc"),
            pageCount := none, language := none }).description
        ≠ String.toList "abc" ∧
      (String.toList "abc").length ≤ 500 := by
  decide

/-- **C8 (amended).** For every successful metadata lookup, the description
field is the source description truncated at 500 characters with the
continuation marker `"..."` appended whenever the source description is
non-empty — truncated or not; an absent or empty description yields the
empty string.  The field never exceeds 503 characters. -/
theorem description_truncation_amended :
    ∀ (isbn : List Char) (vi : VolumeInfo),
      (google_books_record isbn vi).description
          = (if vi.description.getD [] = [] then []
             else (vi.description.getD []).take 500 ++ String.toList "...") ∧
        (google_books_record isbn vi).description.length ≤ 503 := by
  intro isbn vi
  have h1 : (google_books_record isbn vi).description
      = descriptionField vi.description := rfl
  constructor
  · rw [h1]; rfl
  · rw [h1]
    unfold descriptionField
    by_cases h : vi.description.getD [] = []
    · simp [h]
    · rw [if_neg h, List.length_append, List.length_take]
      have h3 : (String.toList "...").length = 3 := by decide
      have h4 := Nat.min_le_left 500 (vi.description.getD []).length
      omega

/-- Entries of `addIsbn m i fname` are either untouched entries of `m` or
carry key `i`, with `fname` appended to an existing list or alone in a
fresh one. -/
theorem addIsbn_mem_cases {m : List (List Char × List (List Char))}
    {i fname : List Char} {e : List Char × List (List Char)}
    (he : e ∈ addIsbn m i fname) :
    e ∈ m ∨ (e.1 = i ∧ (e.2 = [fname] ∨
      ∃ e0, e0 ∈ m ∧ e0.1 = i ∧ e.2 = e0.2 ++ [fname])) := by
  unfold addIsbn at he
  split at he
  · obtain ⟨e0, he0, heq⟩ := List.mem_map.mp he
    by_cases hk : e0.1 = i
    · rw [if_pos hk] at heq
      right
      refine ⟨by rw [← heq]; exact hk, Or.inr ⟨e0, he0, hk, by rw [← heq]⟩⟩
    · rw [if_neg hk] at heq
      left; rw [← heq]; exact he0
  · rcases List.mem_append.mp he with h | h
    · left; exact h
    · right
      have he1 : e = (i, [fname]) := by simpa using h
      rw [he1]
      exact ⟨rfl, Or.inl rfl⟩

/-- When the file name is not yet recorded under key `i`, the spec's
append-on-first-seen step coincides with the source's unconditional
append. -/
theorem addIsbnSpec_eq_addIsbn {m : List (List Char × List (List Char))}
    {i fname : List Char}
    (hfresh : ∀ e ∈ m, e.1 = i → fname ∉ e.2) :
    addIsbnSpec m i fname = addIsbn m i fname := by
  unfold addIsbn addIsbnSpec
  split
  · refine List.map_congr_left ?_
    intro e hem
    by_cases hk : e.1 = i
    · rw [if_pos hk, if_pos hk, if_neg (hfresh e hem hk)]
    · rw [if_neg hk, if_neg hk]
  · rfl

/-- Invariant of the per-file aggregation loop: starting from a map whose
source lists are duplicate-free, contain only `fname` or names satisfying
`Q`, and do not yet contain `fname` under any key still to be processed,
the loop preserves all of that and agrees with the spec's
append-on-first-seen loop.  `isbns.Nodup` holds at the call site because
`extract_isbns_from_text` deduplicates its result. -/
theorem aggregateFile_inv (fname : List Char) (Q : List Char → Prop) :
    ∀ (isbns : List (List Char)) (m : List (List Char × List (List Char))),
      isbns.Nodup →
      (∀ e ∈ m, e.2.Nodup) →
      (∀ e ∈ m, ∀ fn ∈ e.2, fn = fname ∨ Q fn) →
      (∀ e ∈ m, e.1 ∈ isbns → fname ∉ e.2) →
      (∀ e ∈ aggregateFile m fname isbns, e.2.Nodup) ∧
        (∀ e ∈ aggregateFile m fname isbns, ∀ fn ∈ e.2, fn = fname ∨ Q fn) ∧
        aggregateFileSpec m fname isbns = aggregateFile m fname isbns := by
  intro isbns
  induction isbns with
  | nil => intro m _ h1 h2 _; exact ⟨h1, h2, rfl⟩
  | cons i rest ih =>
    intro m hnd h1 h2 h3
    have hstep : aggregateFile m fname (i :: rest)
        = aggregateFile (addIsbn m i fname) fname rest := rfl
    have hstepSpec : aggregateFileSpec m fname (i :: rest)
        = aggregateFileSpec (addIsbnSpec m i fname) fname rest := rfl
    have hfresh : ∀ e ∈ m, e.1 = i → fname ∉ e.2 :=
      fun e he hk => h3 e he (hk ▸ List.mem_cons_self i rest)
    have hA1 : ∀ e ∈ addIsbn m i fname, e.2.Nodup := by
      intro e he
      rcases addIsbn_mem_cases he with h | ⟨hk, h | ⟨e0, he0, hk0, heq⟩⟩
      · exact h1 e h
      · rw [h]; exact List.nodup_singleton fname
      · rw [heq]
        have hnotin : fname ∉ e0.2 := h3 e0 he0 (hk0 ▸ List.mem_cons_self i rest)
        refine (List.nodup_append).mpr ⟨h1 e0 he0, List.nodup_singleton _, ?_⟩
        intro x hx hx2
        have hxf : x = fname := by simpa using hx2
        exact hnotin (hxf ▸ hx)
    have hA2 : ∀ e ∈ addIsbn m i fname, ∀ fn ∈ e.2, fn = fname ∨ Q fn := by
      intro e he fn hfn
      rcases addIsbn_mem_cases he with h | ⟨hk, h | ⟨e0, he0, hk0, heq⟩⟩
      · exact h2 e h fn hfn
      · rw [h] at hfn; left; simpa using hfn
      · rw [heq] at hfn
        rcases List.mem_append.mp hfn with h4 | h4
        · exact h2 e0 he0 fn h4
        · left; simpa using h4
    have hA3 : ∀ e ∈ addIsbn m i fname, e.1 ∈ rest → fname ∉ e.2 := by
      intro e he hk
      rcases addIsbn_mem_cases he with h | ⟨hk1, -⟩
      · exact h3 e h (List.mem_cons_of_mem i hk)
      · exact absurd (hk1 ▸ hk) (List.nodup_cons.mp hnd).1
    rw [hstep, hstepSpec, addIsbnSpec_eq_addIsbn hfresh]
    exact ih (addIsbn m i fname) (List.nodup_cons.mp hnd).2 hA1 hA2 hA3

/-- Invariant of the aggregation over all files: with pairwise-distinct
file names, duplicate-free per-file ISBN lists, and an accumulator not yet
containing any upcoming name, every final source list is duplicate-free
and the spec's loop equals the source's. -/
theorem aggregate_loop_inv :
    ∀ (files : List (List Char × List (List Char)))
      (m : List (List Char × List (List Char))),
      (files.map Prod.fst).Nodup →
      (∀ f ∈ files, f.2.Nodup) →
      (∀ e ∈ m, e.2.Nodup) →
      (∀ f ∈ files, ∀ e ∈ m, f.1 ∉ e.2) →
      (∀ e ∈ files.foldl (fun acc g => aggregateFile acc g.1 g.2) m, e.2.Nodup) ∧
        files.foldl (fun acc g => aggregateFileSpec acc g.1 g.2) m
          = files.foldl (fun acc g => aggregateFile acc g.1 g.2) m := by
  intro files
  induction files with
  | nil => intro m _ _ h2 _; exact ⟨h2, rfl⟩
  | cons f rest ih =>
    intro m hnames hsnd h2 h3
    have hfile := aggregateFile_inv f.1 (fun fn => ∃ e, e ∈ m ∧ fn ∈ e.2) f.2 m
      (hsnd f (List.mem_cons_self f rest))
      h2
      (fun e he fn hfn => Or.inr ⟨e, he, hfn⟩)
      (fun e he _ => h3 f (List.mem_cons_self f rest) e he)
    have hstep : (f :: rest).foldl (fun acc g => aggregateFile acc g.1 g.2) m
        = rest.foldl (fun acc g => aggregateFile acc g.1 g.2)
            (aggregateFile m f.1 f.2) := rfl
    have hstepSpec : (f :: rest).foldl (fun acc g => aggregateFileSpec acc g.1 g.2) m
        = rest.foldl (fun acc g => aggregateFileSpec acc g.1 g.2)
            (aggregateFileSpec m f.1 f.2) := rfl
    have h3r : ∀ g ∈ rest, ∀ e ∈ aggregateFile m f.1 f.2, g.1 ∉ e.2 := by
      intro g hg e he hmem
      rcases hfile.2.1 e he g.1 hmem with h | ⟨e0, he0, h0⟩
      · have hgm : g.1 ∈ rest.map Prod.fst := List.mem_map_of_mem Prod.fst hg
        rw [h] at hgm
        exact (List.nodup_cons.mp hnames).1 hgm
      · exact (h3 g (List.mem_cons_of_mem f hg) e0 he0) h0
    have hrec := ih (aggregateFile m f.1 f.2) (List.nodup_cons.mp hnames).2
      (fun g hg => hsnd g (List.mem_cons_of_mem f hg)) hfile.1 h3r
    refine ⟨by rw [hstep]; exact hrec.1, ?_⟩
    rw [hstepSpec, hfile.2.2, hstep, hrec.2]

/-- **C6.** In the aggregation map, given the guarantees the pipeline
provides at the call site — per-file ISBN lists are duplicate-free
(extraction deduplicates) and file names are pairwise distinct (one
directory scan) — the source's unconditional append behaves exactly as the
spec's append-on-first-seen step, every source-file list is
duplicate-free, and the same identifier found in two distinct files yields
a single entry whose source list is those two files in encounter order. -/
theorem aggregation_append_first_seen :
    (∀ files : List (List Char × List (List Char)),
      (files.map Prod.fst).Nodup →
      (∀ f ∈ files, f.2.Nodup) →
      (aggregateSpec files = aggregate files ∧
        ∀ e ∈ aggregate files, e.2.Nodup))
    ∧ ∀ (f1 f2 i : List Char), f1 ≠ f2 →
        aggregate [(f1, [i]), (f2, [i])] = [(i, [f1, f2])] := by
  constructor
  · intro files h1 h2
    have h := aggregate_loop_inv files [] h1 h2
      (fun e he => absurd he (List.not_mem_nil e))
      (fun f _ e he => absurd he (List.not_mem_nil e))
    exact ⟨h.2, h.1⟩
  · intro f1 f2 i _
    show aggregateFile (aggregateFile [] f1 [i]) f2 [i] = [(i, [f1, f2])]
    simp [aggregateFile, addIsbn]

/-- Witness for C6: the same ISBN found in two concrete files. -/
theorem aggregation_append_first_seen_witness :
    aggregateSpec [(String.toList "a.png", [String.toList "0596007973"]),
        (String.toList "b.png", [String.toList "0596007973"])]
      = aggregate [(String.toList "a.png", [String.toList "0596007973"]),
          (String.toList "b.png", [String.toList "0596007973"])] :=
  ((aggregation_append_first_seen.1 _ (by decide) (by decide)).1)

/-- Files contributing no identifiers leave the aggregation map
unchanged. -/
theorem aggregate_eq_of_all_empty :
    ∀ (files : List (List Char × List (List Char)))
      (m : List (List Char × List (List Char))),
      (∀ f ∈ files, f.2 = []) →
      files.foldl (fun acc g => aggregateFile acc g.1 g.2) m = m := by
  intro files
  induction files with
  | nil => intro m _; rfl
  | cons f rest ih =>
    intro m h
    have h0 : f.2 = [] := h f (List.mem_cons_self f rest)
    have hstep : aggregateFile m f.1 f.2 = m := by rw [h0]; rfl
    show rest.foldl (fun acc g => aggregateFile acc g.1 g.2)
        (aggregateFile m f.1 f.2) = m
    rw [hstep]
    exact ih m (fun g hg => h g (List.mem_cons_of_mem f hg))

/-- **C7.** A run discovering zero images, or zero validated identifiers
across all images, returns normally — no error outcome exists in
`process_folder` — with an empty record list (zero report rows) and the
corresponding logged warning. -/
theorem empty_run_warns_and_succeeds :
    ∀ (lookup : List Char → Option VolumeInfo)
      (images : List (List Char × Option (List Char))),
      (images = [] →
        process_folder lookup images = ([], [LogEvent.warnNoImages])) ∧
      (images ≠ [] →
        (∀ img ∈ images, ∀ text, img.2 = some text →
          extract_isbns_from_text text = []) →
        process_folder lookup images = ([], [LogEvent.warnNoIsbns])) := by
  intro lookup images
  constructor
  · rintro rfl; rfl
  · intro hne hempty
    have hcontrib : ∀ p ∈ images.filterMap fileContribution, p.2 = [] := by
      intro p hp
      obtain ⟨img, himg, hf⟩ := List.mem_filterMap.mp hp
      obtain ⟨name, otext⟩ := img
      rcases otext with _ | text
      · exact absurd hf (by simp [fileContribution])
      · have hfe : fileContribution (name, some text)
            = (if (text.filter (fun c => !isSpaceChar c)).isEmpty then none
               else some (name, extract_isbns_from_text text)) := rfl
        rw [hfe] at hf
        split at hf
        · exact absurd hf (by simp)
        · obtain rfl := Option.some.inj hf
          exact hempty (name, some text) himg text rfl
    have hagg : aggregate (images.filterMap fileContribution) = [] := by
      unfold aggregate
      exact aggregate_eq_of_all_empty _ [] hcontrib
    unfold process_folder
    rw [if_neg (fun h => hne (List.isEmpty_iff.mp h))]
    simp only [hagg, List.isEmpty_nil, if_true]

/-- Witness for C7: the empty directory and a directory with one image
whose text contains no ISBN. -/
theorem empty_run_warns_and_succeeds_witness :
    process_folder (fun _ => none) [] = ([], [LogEvent.warnNoImages]) ∧
      process_folder (fun _ => none)
          [(String.toList "book_1.png", some (String.toList "no match"))]
        = ([], [LogEvent.warnNoIsbns]) := by
  constructor
  · exact (empty_run_warns_and_succeeds (fun _ => none) []).1 rfl
  · refine (empty_run_warns_and_succeeds (fun _ => none) _).2
      (List.cons_ne_nil _ _) ?_
    intro img himg text ht
    have h1 : img = (String.toList "book_1.png",
        some (String.toList "no match")) := by simpa using himg
    rw [h1] at ht
    obtain rfl := Option.some.inj ht
    decide

end BookIsbn
